import Mathlib

/-!
A verification development for the skill-spread analyzer: a shallow embedding of
its three request handlers (the two full-data variants of `index.js` /
`api/get-run-data.js`, and the single-player variant of `api.js`), covering the
identifier collector, the name resolver with per-identifier fallback, and the
per-player damage aggregator, together with theorems about the behaviours the
design document ascribes to them.

Conventions of the embedding:
- JS numbers that can be NaN are `Option Int` / `Option ℚ` with `none` for NaN.
- The outcome of one upstream name lookup (network and JSON parsing included)
  is a `LookupResult`; a whole batch of lookups is an oracle `Int → LookupResult`.
- JS objects used as dictionaries are association lists; their keys are the
  decimal renderings of integers, and since that rendering is injective the
  lists are keyed by the integers themselves.
- `Array.prototype.sort` is a stable sort by the supplied comparator; it is
  embedded as a stable insertion sort.  When the comparator returns NaN the
  call is treated as comparing equal (per the SortCompare specification); an
  inconsistent comparator makes the engine order implementation-defined, so
  theorems about sortedness assume numeric damage values.
-/

namespace SkillSpread

/-- A JS value appearing as an `id` field or a query parameter: a string or an
integral number (all ids in this data set are integers). -/
inductive JsVal where
  | str (s : String)
  | num (n : Int)
deriving DecidableEq

/-- One per-skill record of a player: integer skill id (negative means the
synthetic basic attack), a damage total as a dot-separated numeral string, and
the hit-outcome counts where index 1 is the critical-hit count. -/
structure SkillRecord where
  id : Int
  damage : String
  hitCounts : List Nat
deriving DecidableEq

/-- A player inside one gate; `skills` is optional because the full-data
collector guards `player.skills &&` before walking it. -/
structure Player where
  id : JsVal
  damageDealt : String
  skills : Option (List SkillRecord)
deriving DecidableEq

/-- A gate of a run; `players` is optional for the same reason. -/
structure Gate where
  id : JsVal
  name : String
  players : Option (List Player)
deriving DecidableEq

/-- A run as fetched from the telemetry service. -/
structure Run where
  gates : Option (List Gate)
deriving DecidableEq

/-- Value of a decimal digit list (helper for the two JS numeric parsers);
`none` when the list is empty. -/
def digitsVal (cs : List Char) : Option Nat :=
  if cs = [] then none
  else some (cs.foldl (fun a c => 10 * a + (c.toNat - 48)) 0)

/-- Models `parseInt(s, 10)`: skip leading spaces, optional sign, then the
longest digit prefix; `none` models the NaN result when no digit follows. -/
def parseIntJS (s : String) : Option Int :=
  let cs := s.data.dropWhile (· = ' ')
  match cs with
  | '-' :: rest => (digitsVal (rest.takeWhile (·.isDigit))).map (fun n => -(n : Int))
  | '+' :: rest => (digitsVal (rest.takeWhile (·.isDigit))).map (fun n => (n : Int))
  | _ => (digitsVal (cs.takeWhile (·.isDigit))).map (fun n => (n : Int))

/-- Models `s.replace(/\./g, "")`: drop every dot character. -/
def stripDots (s : String) : String :=
  String.mk (s.data.filter (fun c => c ≠ '.'))

/-- `parseInt(s.replace(/\./g, ""), 10)`, the parse applied to every damage
string of the program. -/
def parseDamage (s : String) : Option Int :=
  parseIntJS (stripDots s)

/-- Models `Number(s)` for the strings this program compares against integral
ids: trimmed; empty means 0; an optional sign followed only by digits means
that integer; anything else is NaN (`none`).  Fractional and exponent forms
cannot equal an integral id and are absorbed into the NaN case. -/
def jsToNumber (s : String) : Option Int :=
  let cs := (((s.data.dropWhile (· = ' ')).reverse).dropWhile (· = ' ')).reverse
  match cs with
  | [] => some 0
  | '-' :: rest =>
      if rest ≠ [] ∧ rest.all (·.isDigit)
      then (digitsVal rest).map (fun n => -(n : Int)) else none
  | '+' :: rest =>
      if rest ≠ [] ∧ rest.all (·.isDigit)
      then (digitsVal rest).map (fun n => (n : Int)) else none
  | _ =>
      if cs.all (·.isDigit)
      then (digitsVal cs).map (fun n => (n : Int)) else none

/-- JS strict equality `===` on id values: never true across types. -/
def strictEq : JsVal → JsVal → Bool
  | .str a, .str b => a == b
  | .num a, .num b => a == b
  | _, _ => false

/-- JS loose equality `==` on id values: a string and a number compare by
converting the string with `Number(...)`. -/
def looseEq : JsVal → JsVal → Bool
  | .str a, .str b => a == b
  | .num a, .num b => a == b
  | .str a, .num b => jsToNumber a == some b
  | .num a, .str b => jsToNumber b == some a

/-- Outcome of one skill-name lookup against the table service: the promise
chain either fails (fetch rejection or `res.json()` rejection, both landing in
the same `.catch`) or delivers a parsed object whose `_NameID_txt` field may be
absent. -/
inductive LookupResult where
  | err
  | ok (field : Option String)
deriving DecidableEq

/-- The name computed for one id from its own lookup outcome:
`data._NameID_txt || "Unknown Skill (id)"` on success (the `||` also replaces
an empty string, the only falsy string), `"Error Skill (id)"` from the catch
handler. -/
def resolveOne (r : LookupResult) (skillId : Int) : String :=
  match r with
  | .ok (some s) => if s = "" then s!"Unknown Skill ({skillId})" else s
  | .ok none => s!"Unknown Skill ({skillId})"
  | .err => s!"Error Skill ({skillId})"

/-- One JS object property write `acc[k] = v`: update in place, or append a
fresh key. -/
def insertJs : List (Int × String) → Int → String → List (Int × String)
  | [], k, v => [(k, v)]
  | e :: rest, k, v => if e.1 = k then (k, v) :: rest else e :: insertJs rest k v

/-- JS object property read `acc[k]`. -/
def lookupJs : List (Int × String) → Int → Option String
  | [], _ => none
  | e :: rest, k => if e.1 = k then some e.2 else lookupJs rest k

/-- `skillNameEntries.reduce((acc, curr) => { acc[curr.id] = curr.name; return acc; }, {})` -/
def buildDict (entries : List (Int × String)) : List (Int × String) :=
  entries.foldl (fun acc e => insertJs acc e.1 e.2) []

/-- Full-data variants: every id handed to the resolver is fetched from the
skill table, its entry determined by its own outcome. -/
def resolveEntryFull (oracle : Int → LookupResult) (skillId : Int) : Int × String :=
  (skillId, resolveOne (oracle skillId) skillId)

/-- Full-data dictionary: the entries reduced into an object, then the manual
`skillDictionary["-1"] = "Basic Attack"`. -/
def fullDict (ids : List Int) (oracle : Int → LookupResult) : List (Int × String) :=
  insertJs (buildDict (ids.map (resolveEntryFull oracle))) (-1) "Basic Attack"

/-- Ids for which the full-data variants issue an outbound lookup call: all of
those handed to the resolver. -/
def lookupsIssuedFull (ids : List Int) : List Int := ids

/-- Single-player variant: an id below zero short-circuits to a plain
Basic Attack entry without any fetch. -/
def resolveEntrySingle (oracle : Int → LookupResult) (skillId : Int) : Int × String :=
  if skillId < 0 then (skillId, "Basic Attack")
  else (skillId, resolveOne (oracle skillId) skillId)

/-- Single-player dictionary: the entries reduced into an object; note there is
no manual `"-1"` write in this variant. -/
def singleDict (ids : List Int) (oracle : Int → LookupResult) : List (Int × String) :=
  buildDict (ids.map (resolveEntrySingle oracle))

/-- Ids for which the single-player variant issues an outbound lookup call:
exactly the non-negative ones. -/
def lookupsIssuedSingle (ids : List Int) : List Int :=
  ids.filter (fun i => !decide (i < 0))

/-- JS `Set` insertion: keeps insertion order, ignores an element already
present. -/
def setAdd (s : List Int) (x : Int) : List Int :=
  if x ∈ s then s else s ++ [x]

/-- Full-data collector, innermost step: `if (skill.id > 0) allSkillIds.add(skill.id)`. -/
def addSkill (acc : List Int) (s : SkillRecord) : List Int :=
  if 0 < s.id then setAdd acc s.id else acc

/-- Walk one player's skills; an absent field contributes nothing (the source
also guards `length > 0`, which folding an empty list subsumes). -/
def addPlayer (acc : List Int) (p : Player) : List Int :=
  (p.skills.getD []).foldl addSkill acc

/-- Walk one gate's players under the same guards. -/
def addGate (acc : List Int) (g : Gate) : List Int :=
  (g.players.getD []).foldl addPlayer acc

/-- Full-data identifier collector over the whole run. -/
def collectIds (run : Run) : List Int :=
  (run.gates.getD []).foldl addGate []

/-- Insertion-order deduplication `[...new Set(xs)]`. -/
def dedupJs (xs : List Int) : List Int :=
  xs.foldl setAdd []

/-- Single-player collector: `player.skills.map(s => s.id)` deduplicated; note
the absence of any sign filter in this variant. -/
def collectIdsSingle (skills : List SkillRecord) : List Int :=
  dedupJs (skills.map (·.id))

/-- Every id referenced by some SkillRecord of the run: the scope over which
the design document states its mapping invariant. -/
def referencedIds (run : Run) : List Int :=
  (run.gates.getD []).flatMap (fun g =>
    (g.players.getD []).flatMap (fun p => (p.skills.getD []).map (·.id)))

/-- Rounding to one decimal the way `parseFloat(x.toFixed(1))` renders an exact
value: ties go up. -/
def roundTo1 (q : ℚ) : ℚ := ((⌊q * 10 + 1/2⌋ : ℤ) : ℚ) / 10

/-- One enriched output row; `damage` and `percent` are `none` when the
corresponding JS float is NaN. -/
structure Row where
  name : String
  damage : Option Int
  percent : Option ℚ
  crit_hits : String
  crit_rate : ℚ
deriving DecidableEq

/-- `skillDictionary[skill.id] || "Unknown Skill (id)"` (again `||` replaces an
empty string as well as a missing key). -/
def resolveName (dict : List (Int × String)) (skillId : Int) : String :=
  match lookupJs dict skillId with
  | some s => if s = "" then s!"Unknown Skill ({skillId})" else s
  | none => s!"Unknown Skill ({skillId})"

/-- One row of the cleaning step: damage parse, share of the player total, crit
tally.  `total` is `none` when the player total parsed to NaN, making every
percent NaN.  A zero total never reaches this code (short-circuited earlier),
so the `q / 0 = 0` convention of `ℚ` is never exercised. -/
def cleanRow (dict : List (Int × String)) (total : Option Int) (skill : SkillRecord) : Row :=
  let damage := parseDamage skill.damage
  let percent : Option ℚ :=
    match damage, total with
    | some d, some t => some (roundTo1 ((d : ℚ) / (t : ℚ) * 100))
    | _, _ => none
  let crits : Nat := (skill.hitCounts[1]?).getD 0
  let totalHits : Nat := skill.hitCounts.foldl (· + ·) 0
  let critRate : ℚ :=
    if 0 < totalHits then roundTo1 ((crits : ℚ) / (totalHits : ℚ) * 100) else 0
  { name := resolveName dict skill.id
    damage := damage
    percent := percent
    crit_hits := s!"{crits} / {totalHits}"
    crit_rate := critRate }

/-- The comparator `(a, b) => b.damage - a.damage` as a keep-in-order test:
`a` may stay before `b` when the comparator value is at most 0; a NaN
comparator value counts as 0 per the SortCompare specification. -/
def rowLe (a b : Row) : Bool :=
  match a.damage, b.damage with
  | some x, some y => decide (y ≤ x)
  | _, _ => true

/-- Stable insertion: the incoming element goes in front of the first element
it is allowed to precede. -/
def orderedInsertJs {α : Type} (le : α → α → Bool) (x : α) : List α → List α
  | [] => [x]
  | y :: ys => if le x y then x :: y :: ys else y :: orderedInsertJs le x ys

/-- Stable insertion sort: the embedding of `Array.prototype.sort`, which is
specified to be stable. -/
def insertionSortJs {α : Type} (le : α → α → Bool) : List α → List α
  | [] => []
  | x :: xs => orderedInsertJs le x (insertionSortJs le xs)

/-- The cleaned rows, sorted by damage descending. -/
def aggregateRows (dict : List (Int × String)) (total : Option Int)
    (skills : List SkillRecord) : List Row :=
  insertionSortJs rowLe (skills.map (cleanRow dict total))

/-- Result of the Aggregator: the zero-damage short-circuit or the row list. -/
inductive AggResult where
  | zeroDamage
  | rows (rs : List Row)
deriving DecidableEq

/-- The Aggregator: parse the player total (dots removed); a total of exactly
zero short-circuits before any row is built or divided; otherwise build and
sort the rows (a NaN total proceeds, since `NaN === 0` is false). -/
def aggregate (dict : List (Int × String)) (damageDealt : String)
    (skills : List SkillRecord) : AggResult :=
  let total := parseDamage damageDealt
  if total = some 0 then .zeroDamage
  else .rows (aggregateRows dict total skills)

/-- A skill record as delivered, before assuming its required fields exist. -/
structure RawSkillRecord where
  id : Int
  damage : Option String
  hitCounts : Option (List Nat)
deriving DecidableEq

/-- The TypeError escaping when `skill.damage` is absent (`undefined.replace`). -/
def tyErrReplace : String := "TypeError: Cannot read properties of undefined (reading \x27replace\x27)"

/-- The TypeError escaping when `skill.hitCounts` is absent (`undefined[1]`). -/
def tyErrIndex : String := "TypeError: Cannot read properties of undefined (reading \x271\x27)"

/-- The cleaning step on a raw record: an absent damage string throws on
`.replace`, an absent hit-count sequence throws on `[1]`; both escape as
generic TypeErrors naming no skill.  A present but non-numeric damage string
does not throw: `parseInt` yields NaN and the row is still produced. -/
def cleanRowRaw (dict : List (Int × String)) (total : Option Int)
    (r : RawSkillRecord) : Except String Row :=
  match r.damage with
  | none => .error tyErrReplace
  | some ds =>
    match r.hitCounts with
    | none => .error tyErrIndex
    | some hc => .ok (cleanRow dict total { id := r.id, damage := ds, hitCounts := hc })

/-- Responses of the single-player endpoint. -/
inductive SingleResponse where
  | badRequest (error : String)
  | zeroMessage (message : String) (data : List Row)
  | payload (data : List Row)
  | serverError (error : String)
deriving DecidableEq

/-- `g => g.id === gate_id` (the gate is found by strict equality). -/
def gateMatches (gate_id : String) (g : Gate) : Bool :=
  strictEq g.id (.str gate_id)

/-- `p => p.id == player_id` (the player is found by loose equality). -/
def playerMatches (player_id : String) (p : Player) : Bool :=
  looseEq p.id (.str player_id)

/-- The TypeError escaping when `.find` is called on an absent collection. -/
def tyErrFind : String := "TypeError: Cannot read properties of undefined (reading \x27find\x27)"

/-- The TypeError escaping when `.map` is called on an absent skills field. -/
def tyErrMap : String := "TypeError: Cannot read properties of undefined (reading \x27map\x27)"

/-- The single-player handler after the run fetch: parameter check, strict gate
find, loose player find, zero-total short-circuit, then collect, resolve and
aggregate.  Thrown TypeErrors surface through the catch-all as 500s. -/
def handleSingle (runData : Run) (oracle : Int → LookupResult)
    (player_id gate_id : String) : SingleResponse :=
  if player_id = "" ∨ gate_id = "" then
    .badRequest "Missing required query parameters. \x27id\x27, \x27player_id\x27, and \x27gate_id\x27 are all required."
  else
    match runData.gates with
    | none => .serverError tyErrFind
    | some gates =>
      match gates.find? (gateMatches gate_id) with
      | none => .serverError s!"Gate with ID \x27{gate_id}\x27 not found."
      | some gate =>
        match gate.players with
        | none => .serverError tyErrFind
        | some players =>
          match players.find? (playerMatches player_id) with
          | none => .serverError s!"Player with ID \x27{player_id}\x27 not found in gate \x27{gate.name}\x27."
          | some player =>
            if parseDamage player.damageDealt = some 0 then
              .zeroMessage "Player has 0 damage for this gate." []
            else
              match player.skills with
              | none => .serverError tyErrMap
              | some skills =>
                .payload (aggregateRows (singleDict (collectIdsSingle skills) oracle)
                  (parseDamage player.damageDealt) skills)

/-- An oracle whose every lookup succeeds with the same name (used for
concrete instantiations). -/
def oracleConst : Int → LookupResult := fun _ => .ok (some "X")

/-- An oracle failing exactly at id 7 (used for concrete instantiations). -/
def oracleErrAt7 : Int → LookupResult :=
  fun i => if i = 7 then .err else .ok (some "Blaze")

/-- A player whose single skill record has id 0 (referenced but not collected). -/
def playerZero : Player :=
  { id := .num 1, damageDealt := "10",
    skills := some [{ id := 0, damage := "10", hitCounts := [1] }] }

/-- A run whose single skill record has id 0 (referenced but not collected). -/
def runZero : Run :=
  { gates := some [{ id := .str "g1", name := "G", players := some [playerZero] }] }

/-- A player with zero total damage (used for the boundary short-circuit). -/
def playerZeroDmg : Player :=
  { id := .num 62257, damageDealt := "0",
    skills := some [{ id := 5, damage := "0", hitCounts := [1] }] }

/-- A gate holding the zero-damage player (used for the boundary short-circuit). -/
def gateZeroDmg : Gate :=
  { id := .str "Total", name := "Total", players := some [playerZeroDmg] }

/-- A run with a zero-damage player (used for the boundary short-circuit). -/
def runZeroDmg : Run :=
  { gates := some [gateZeroDmg] }

/-- A gate with a numeric id (used for the equality-mode witness). -/
def gateNum7 : Gate := { id := .num 7, name := "G", players := none }

/-- A player with a numeric id (used for the equality-mode witness). -/
def playerNum : Player := { id := .num 62257, damageDealt := "1", skills := none }

/-- Two records whose damage parses but whose player total will not (used for
the sort witness: a NaN total leaves every percent NaN but sorts by damage). -/
def skillsNaN : List SkillRecord :=
  [{ id := 1, damage := "4", hitCounts := [] },
   { id := 2, damage := "6", hitCounts := [] }]

/-- The rows the Aggregator produces from `skillsNaN` under a NaN total. -/
def rowsNaN : List Row :=
  [{ name := "Unknown Skill (2)", damage := some 6, percent := none,
     crit_hits := "0 / 0", crit_rate := 0 },
   { name := "Unknown Skill (1)", damage := some 4, percent := none,
     crit_hits := "0 / 0", crit_rate := 0 }]

/-- A player exercising the full-data collector: a duplicated positive id and a
negative one (used for witnesses). -/
def playerSmall : Player :=
  { id := .num 1, damageDealt := "10",
    skills := some [{ id := 5, damage := "4", hitCounts := [1] },
                    { id := -1, damage := "6", hitCounts := [2] },
                    { id := 5, damage := "4", hitCounts := [1] }] }

/-- A small run exercising the full-data collector (used for witnesses). -/
def runSmall : Run :=
  { gates := some [{ id := .str "g1", name := "G", players := some [playerSmall] }] }

/-- Two well-formed records with distinct damages (used for the sort witness). -/
def skillsSmall : List SkillRecord :=
  [{ id := 1, damage := "4", hitCounts := [1] },
   { id := 2, damage := "6", hitCounts := [1] }]

/-- Reading an object after a property write: the written key yields the new
value, every other key is untouched. -/
theorem lookupJs_insertJs (d : List (Int × String)) (k k2 : Int) (v : String) :
    lookupJs (insertJs d k v) k2 = if k2 = k then some v else lookupJs d k2 := by
  induction d with
  | nil =>
    by_cases h : k2 = k
    · simp [insertJs, lookupJs, h]
    · simp [insertJs, lookupJs, h, Ne.symm h]
  | cons e rest ih =>
    by_cases h1 : e.1 = k
    · by_cases h2 : k2 = k
      · simp [insertJs, lookupJs, h1, h2]
      · simp [insertJs, lookupJs, h1, h2, Ne.symm h2]
    · by_cases h2 : k2 = k
      · subst h2
        simp [insertJs, lookupJs, h1, ih]
      · simp [insertJs, lookupJs, h1, h2, ih]

/-- Folding property writes whose keys all differ from `k` leaves the value at
`k` unchanged. -/
theorem lookupJs_foldl_ne (entries : List (Int × String)) (k : Int)
    (acc : List (Int × String)) (h : ∀ e ∈ entries, e.1 ≠ k) :
    lookupJs (entries.foldl (fun a e => insertJs a e.1 e.2) acc) k = lookupJs acc k := by
  induction entries generalizing acc with
  | nil => rfl
  | cons e rest ih =>
    have hk : k ≠ e.1 := Ne.symm (h e (List.mem_cons_self _ _))
    rw [List.foldl_cons, ih _ (fun e2 he2 => h e2 (List.mem_cons_of_mem _ he2)),
      lookupJs_insertJs, if_neg hk]

/-- Folding property writes with pairwise-distinct keys: the value at a written
key is the one its entry carries. -/
theorem lookupJs_foldl_mem (entries : List (Int × String)) (k : Int) (v : String)
    (acc : List (Int × String)) (hnd : (entries.map Prod.fst).Nodup)
    (hmem : (k, v) ∈ entries) :
    lookupJs (entries.foldl (fun a e => insertJs a e.1 e.2) acc) k = some v := by
  induction entries generalizing acc with
  | nil => cases hmem
  | cons e rest ih =>
    rw [List.map_cons, List.nodup_cons] at hnd
    rcases List.mem_cons.mp hmem with he | hrest
    · have hek : e.1 = k := (congrArg Prod.fst he).symm
      have hkeys : ∀ e2 ∈ rest, e2.1 ≠ k := by
        intro e2 he2 hcontra
        exact hnd.1 (by
          rw [hek, ← hcontra]
          exact List.mem_map_of_mem Prod.fst he2)
      rw [List.foldl_cons, lookupJs_foldl_ne _ _ _ hkeys, ← he, lookupJs_insertJs, if_pos rfl]
    · exact ih (insertJs acc e.1 e.2) hnd.2 hrest

/-- Reading a freshly reduced dictionary at one of its (distinct) keys. -/
theorem lookupJs_buildDict (entries : List (Int × String)) (k : Int) (v : String)
    (hnd : (entries.map Prod.fst).Nodup) (hmem : (k, v) ∈ entries) :
    lookupJs (buildDict entries) k = some v :=
  lookupJs_foldl_mem entries k v [] hnd hmem

/-- Reading a freshly reduced dictionary at an absent key. -/
theorem lookupJs_buildDict_ne (entries : List (Int × String)) (k : Int)
    (h : ∀ e ∈ entries, e.1 ≠ k) :
    lookupJs (buildDict entries) k = none :=
  lookupJs_foldl_ne entries k [] h

/-- The key of a full-variant resolver entry is the id it was built from. -/
theorem resolveEntryFull_fst (oracle : Int → LookupResult) (i : Int) :
    (resolveEntryFull oracle i).1 = i := rfl

/-- The key of a single-variant resolver entry is the id it was built from. -/
theorem resolveEntrySingle_fst (oracle : Int → LookupResult) (i : Int) :
    (resolveEntrySingle oracle i).1 = i := by
  unfold resolveEntrySingle
  split <;> rfl

/-- The keys of the full-variant entry list are the input ids themselves. -/
theorem map_fst_entries_full (oracle : Int → LookupResult) (ids : List Int) :
    ((ids.map (resolveEntryFull oracle)).map Prod.fst) = ids := by
  simp [List.map_map, Function.comp_def, resolveEntryFull]

/-- The keys of the single-variant entry list are the input ids themselves. -/
theorem map_fst_entries_single (oracle : Int → LookupResult) (ids : List Int) :
    ((ids.map (resolveEntrySingle oracle)).map Prod.fst) = ids := by
  simp [List.map_map, Function.comp_def, resolveEntrySingle_fst]

/-- Membership after a `Set` insertion. -/
theorem mem_setAdd (s : List Int) (x y : Int) :
    y ∈ setAdd s x ↔ y ∈ s ∨ y = x := by
  by_cases h : x ∈ s
  · simp only [setAdd, if_pos h]
    constructor
    · exact Or.inl
    · rintro (hy | rfl)
      · exact hy
      · exact h
  · simp [setAdd, if_neg h]

/-- `Set` insertion never duplicates. -/
theorem nodup_setAdd (s : List Int) (x : Int) (h : s.Nodup) :
    (setAdd s x).Nodup := by
  by_cases hx : x ∈ s
  · simpa [setAdd, if_pos hx] using h
  · rw [setAdd, if_neg hx]
    exact List.Nodup.append h (List.nodup_singleton x)
      (List.disjoint_singleton.mpr hx)

/-- Membership after folding the innermost collector step over one player's
skills: the accumulator plus every strictly positive id among the records. -/
theorem mem_foldl_addSkill (skills : List SkillRecord) (acc : List Int) (y : Int) :
    y ∈ skills.foldl addSkill acc ↔ y ∈ acc ∨ (0 < y ∧ ∃ s ∈ skills, s.id = y) := by
  induction skills generalizing acc with
  | nil => simp
  | cons s rest ih =>
    rw [List.foldl_cons, ih]
    unfold addSkill
    by_cases h : 0 < s.id
    · rw [if_pos h]
      rw [mem_setAdd]
      constructor
      · rintro (⟨hy | rfl⟩ | ⟨hpos, s2, hs2, rfl⟩)
        · exact Or.inl hy
        · exact Or.inr ⟨h, s, List.mem_cons_self _ _, rfl⟩
        · exact Or.inr ⟨hpos, s2, List.mem_cons_of_mem _ hs2, rfl⟩
      · rintro (hy | ⟨hpos, s2, hs2, rfl⟩)
        · exact Or.inl (Or.inl hy)
        · rcases List.mem_cons.mp hs2 with rfl | hs2r
          · exact Or.inl (Or.inr rfl)
          · exact Or.inr ⟨hpos, s2, hs2r, rfl⟩
    · rw [if_neg h]
      constructor
      · rintro (hy | ⟨hpos, s2, hs2, rfl⟩)
        · exact Or.inl hy
        · exact Or.inr ⟨hpos, s2, List.mem_cons_of_mem _ hs2, rfl⟩
      · rintro (hy | ⟨hpos, s2, hs2, rfl⟩)
        · exact Or.inl hy
        · rcases List.mem_cons.mp hs2 with rfl | hs2r
          · exact absurd hpos h
          · exact Or.inr ⟨hpos, s2, hs2r, rfl⟩

/-- Membership after folding the collector over one gate's players. -/
theorem mem_foldl_addPlayer (players : List Player) (acc : List Int) (y : Int) :
    y ∈ players.foldl addPlayer acc ↔
      y ∈ acc ∨ (0 < y ∧ ∃ p ∈ players, ∃ s ∈ p.skills.getD [], s.id = y) := by
  induction players generalizing acc with
  | nil => simp
  | cons p rest ih =>
    rw [List.foldl_cons, ih]
    unfold addPlayer
    rw [mem_foldl_addSkill]
    constructor
    · rintro (⟨hy | ⟨hpos, s, hs, rfl⟩⟩ | ⟨hpos, p2, hp2, s, hs, rfl⟩)
      · exact Or.inl hy
      · exact Or.inr ⟨hpos, p, List.mem_cons_self _ _, s, hs, rfl⟩
      · exact Or.inr ⟨hpos, p2, List.mem_cons_of_mem _ hp2, s, hs, rfl⟩
    · rintro (hy | ⟨hpos, p2, hp2, s, hs, rfl⟩)
      · exact Or.inl (Or.inl hy)
      · rcases List.mem_cons.mp hp2 with rfl | hp2r
        · exact Or.inl (Or.inr ⟨hpos, s, hs, rfl⟩)
        · exact Or.inr ⟨hpos, p2, hp2r, s, hs, rfl⟩

/-- Membership after folding the collector over the gates. -/
theorem mem_foldl_addGate (gates : List Gate) (acc : List Int) (y : Int) :
    y ∈ gates.foldl addGate acc ↔
      y ∈ acc ∨ (0 < y ∧ ∃ g ∈ gates, ∃ p ∈ g.players.getD [],
        ∃ s ∈ p.skills.getD [], s.id = y) := by
  induction gates generalizing acc with
  | nil => simp
  | cons g rest ih =>
    rw [List.foldl_cons, ih]
    unfold addGate
    rw [mem_foldl_addPlayer]
    constructor
    · rintro (⟨hy | ⟨hpos, p, hp, s, hs, rfl⟩⟩ | ⟨hpos, g2, hg2, p, hp, s, hs, rfl⟩)
      · exact Or.inl hy
      · exact Or.inr ⟨hpos, g, List.mem_cons_self _ _, p, hp, s, hs, rfl⟩
      · exact Or.inr ⟨hpos, g2, List.mem_cons_of_mem _ hg2, p, hp, s, hs, rfl⟩
    · rintro (hy | ⟨hpos, g2, hg2, p, hp, s, hs, rfl⟩)
      · exact Or.inl (Or.inl hy)
      · rcases List.mem_cons.mp hg2 with rfl | hg2r
        · exact Or.inl (Or.inr ⟨hpos, p, hp, s, hs, rfl⟩)
        · exact Or.inr ⟨hpos, g2, hg2r, p, hp, s, hs, rfl⟩

/-- Membership in the full-data collector output: exactly the strictly
positive referenced ids. -/
theorem mem_collectIds (run : Run) (y : Int) :
    y ∈ collectIds run ↔ 0 < y ∧ y ∈ referencedIds run := by
  rw [collectIds, mem_foldl_addGate, referencedIds]
  simp [eq_comm]

/-- The collector's innermost fold preserves freedom from duplicates. -/
theorem nodup_foldl_addSkill (skills : List SkillRecord) (acc : List Int)
    (h : acc.Nodup) : (skills.foldl addSkill acc).Nodup := by
  induction skills generalizing acc with
  | nil => exact h
  | cons s rest ih =>
    rw [List.foldl_cons]
    apply ih
    unfold addSkill
    by_cases hpos : 0 < s.id
    · rw [if_pos hpos]
      exact nodup_setAdd _ _ h
    · rwa [if_neg hpos]

/-- The collector's player-level fold preserves freedom from duplicates. -/
theorem nodup_foldl_addPlayer (players : List Player) (acc : List Int)
    (h : acc.Nodup) : (players.foldl addPlayer acc).Nodup := by
  induction players generalizing acc with
  | nil => exact h
  | cons p rest ih =>
    rw [List.foldl_cons]
    exact ih _ (nodup_foldl_addSkill _ _ h)

/-- The collector's gate-level fold preserves freedom from duplicates. -/
theorem nodup_foldl_addGate (gates : List Gate) (acc : List Int)
    (h : acc.Nodup) : (gates.foldl addGate acc).Nodup := by
  induction gates generalizing acc with
  | nil => exact h
  | cons g rest ih =>
    rw [List.foldl_cons]
    exact ih _ (nodup_foldl_addPlayer _ _ h)

/-- The full-data collector output has no duplicates. -/
theorem nodup_collectIds (run : Run) : (collectIds run).Nodup :=
  nodup_foldl_addGate _ [] List.nodup_nil

/-- Membership through the deduplicating fold. -/
theorem mem_foldl_setAdd (xs : List Int) (acc : List Int) (y : Int) :
    y ∈ xs.foldl setAdd acc ↔ y ∈ acc ∨ y ∈ xs := by
  induction xs generalizing acc with
  | nil => simp
  | cons x rest ih =>
    rw [List.foldl_cons, ih, mem_setAdd]
    constructor
    · rintro (⟨hy | rfl⟩ | hy)
      · exact Or.inl hy
      · exact Or.inr (List.mem_cons_self _ _)
      · exact Or.inr (List.mem_cons_of_mem _ hy)
    · rintro (hy | hy)
      · exact Or.inl (Or.inl hy)
      · rcases List.mem_cons.mp hy with rfl | hyr
        · exact Or.inl (Or.inr rfl)
        · exact Or.inr hyr

/-- Deduplication preserves membership. -/
theorem mem_dedupJs (xs : List Int) (y : Int) :
    y ∈ dedupJs xs ↔ y ∈ xs := by
  rw [dedupJs, mem_foldl_setAdd]
  simp

/-- The deduplicating fold yields no duplicates. -/
theorem nodup_foldl_setAdd (xs : List Int) (acc : List Int) (h : acc.Nodup) :
    (xs.foldl setAdd acc).Nodup := by
  induction xs generalizing acc with
  | nil => exact h
  | cons x rest ih =>
    rw [List.foldl_cons]
    exact ih _ (nodup_setAdd _ _ h)

/-- Deduplication yields no duplicates. -/
theorem nodup_dedupJs (xs : List Int) : (dedupJs xs).Nodup :=
  nodup_foldl_setAdd _ [] List.nodup_nil

/-- Stable insertion permutes. -/
theorem perm_orderedInsertJs {α : Type} (le : α → α → Bool) (x : α) (l : List α) :
    (orderedInsertJs le x l).Perm (x :: l) := by
  induction l with
  | nil => exact List.Perm.refl _
  | cons y ys ih =>
    rw [orderedInsertJs]
    by_cases h : le x y = true
    · rw [if_pos h]
    · rw [if_neg h]
      exact (List.Perm.cons y ih).trans (List.Perm.swap x y ys)

/-- Stable insertion sort permutes. -/
theorem perm_insertionSortJs {α : Type} (le : α → α → Bool) (l : List α) :
    (insertionSortJs le l).Perm l := by
  induction l with
  | nil => exact List.Perm.refl _
  | cons x xs ih =>
    rw [insertionSortJs]
    exact (perm_orderedInsertJs le x _).trans (List.Perm.cons x ih)

/-- Stable insertion sort preserves membership. -/
theorem mem_insertionSortJs {α : Type} (le : α → α → Bool) (l : List α) (a : α) :
    a ∈ insertionSortJs le l ↔ a ∈ l :=
  (perm_insertionSortJs le l).mem_iff

/-- Inserting into a list already ordered by `le` keeps it ordered, provided
`le` is total between the new element and the residents and transitive across
them. -/
theorem pairwise_orderedInsertJs {α : Type} (le : α → α → Bool) (x : α) (l : List α)
    (htot : ∀ b ∈ l, le x b = true ∨ le b x = true)
    (htrans : ∀ b ∈ l, ∀ c ∈ l, le x b = true → le b c = true → le x c = true)
    (hl : l.Pairwise (fun a b => le a b = true)) :
    (orderedInsertJs le x l).Pairwise (fun a b => le a b = true) := by
  induction l with
  | nil => simp [orderedInsertJs]
  | cons y ys ih =>
    rw [orderedInsertJs]
    rcases List.pairwise_cons.mp hl with ⟨hy, hys⟩
    by_cases h : le x y = true
    · rw [if_pos h]
      refine List.Pairwise.cons ?_ hl
      intro z hz
      rcases List.mem_cons.mp hz with rfl | hz2
      · exact h
      · exact htrans y (List.mem_cons_self _ _) z (List.mem_cons_of_mem _ hz2) h (hy z hz2)
    · rw [if_neg h]
      have hyx : le y x = true := (htot y (List.mem_cons_self _ _)).resolve_left h
      refine List.Pairwise.cons ?_ ?_
      · intro z hz
        rcases List.mem_cons.mp ((perm_orderedInsertJs le x ys).mem_iff.mp hz) with rfl | hz2
        · exact hyx
        · exact hy z hz2
      · exact ih (fun b hb => htot b (List.mem_cons_of_mem _ hb))
          (fun b hb c hc => htrans b (List.mem_cons_of_mem _ hb) c (List.mem_cons_of_mem _ hc))
          hys

/-- The stable sort orders its output by `le`, provided `le` is total and
transitive on the input's elements (a consistent comparator). -/
theorem pairwise_insertionSortJs {α : Type} (le : α → α → Bool) (l : List α)
    (htot : ∀ a ∈ l, ∀ b ∈ l, le a b = true ∨ le b a = true)
    (htrans : ∀ a ∈ l, ∀ b ∈ l, ∀ c ∈ l, le a b = true → le b c = true → le a c = true) :
    (insertionSortJs le l).Pairwise (fun a b => le a b = true) := by
  induction l with
  | nil => simp [insertionSortJs]
  | cons x xs ih =>
    rw [insertionSortJs]
    have hmem : ∀ b ∈ insertionSortJs le xs, b ∈ xs :=
      fun b hb => (mem_insertionSortJs le xs b).mp hb
    refine pairwise_orderedInsertJs le x _ ?_ ?_ ?_
    · intro b hb
      exact htot x (List.mem_cons_self _ _) b (List.mem_cons_of_mem _ (hmem b hb))
    · intro b hb c hc
      exact htrans x (List.mem_cons_self _ _) b (List.mem_cons_of_mem _ (hmem b hb))
        c (List.mem_cons_of_mem _ (hmem c hc))
    · exact ih (fun a ha b hb => htot a (List.mem_cons_of_mem _ ha) b (List.mem_cons_of_mem _ hb))
        (fun a ha b hb c hc => htrans a (List.mem_cons_of_mem _ ha)
          b (List.mem_cons_of_mem _ hb) c (List.mem_cons_of_mem _ hc))

/-- Stability of the insertion, seen through a filter: elements satisfying `p`
compare `le` against each other, so the insertion point cannot cross one. -/
theorem filter_orderedInsertJs {α : Type} (le : α → α → Bool) (p : α → Bool)
    (x : α) (l : List α)
    (hpl : ∀ b ∈ l, p x = true → p b = true → le x b = true) :
    (orderedInsertJs le x l).filter p = (x :: l).filter p := by
  induction l with
  | nil => rfl
  | cons y ys ih =>
    rw [orderedInsertJs]
    by_cases h : le x y = true
    · rw [if_pos h]
    · rw [if_neg h]
      have ih2 := ih (fun b hb => hpl b (List.mem_cons_of_mem _ hb))
      by_cases hpx : p x = true
      · have hpy : ¬ p y = true :=
          fun hpy => h (hpl y (List.mem_cons_self _ _) hpx hpy)
        simp only [List.filter_cons, hpx, hpy, if_pos, if_neg, ih2]
        simp [hpx, hpy]
      · simp only [List.filter_cons, ih2]
        simp [hpx]

/-- The stable sort leaves the relative order of any `le`-tied class of
elements unchanged. -/
theorem filter_insertionSortJs {α : Type} (le : α → α → Bool) (p : α → Bool)
    (l : List α)
    (hp : ∀ a ∈ l, ∀ b ∈ l, p a = true → p b = true → le a b = true) :
    (insertionSortJs le l).filter p = l.filter p := by
  induction l with
  | nil => rfl
  | cons x xs ih =>
    rw [insertionSortJs]
    rw [filter_orderedInsertJs le p x _ (fun b hb hpx hpb =>
      hp x (List.mem_cons_self _ _) b
        (List.mem_cons_of_mem _ ((mem_insertionSortJs le xs b).mp hb)) hpx hpb)]
    rw [List.filter_cons, List.filter_cons,
      ih (fun a ha b hb => hp a (List.mem_cons_of_mem _ ha) b (List.mem_cons_of_mem _ hb))]

/-- The damage field of a cleaned row is the parse of the record's damage string. -/
theorem cleanRow_damage (dict : List (Int × String)) (total : Option Int)
    (s : SkillRecord) : (cleanRow dict total s).damage = parseDamage s.damage := rfl

/-- The comparator test is total (NaN compares as equal in both directions). -/
theorem rowLe_total (a b : Row) : rowLe a b = true ∨ rowLe b a = true := by
  unfold rowLe
  rcases a.damage with _ | x <;> rcases b.damage with _ | y <;> simp
  exact le_total y x

/-- The comparator test is transitive over rows with numeric damage. -/
theorem rowLe_trans_some (a b c : Row)
    (ha : a.damage.isSome = true) (hb : b.damage.isSome = true)
    (hc : c.damage.isSome = true)
    (hab : rowLe a b = true) (hbc : rowLe b c = true) : rowLe a c = true := by
  rcases Option.isSome_iff_exists.mp ha with ⟨x, hx⟩
  rcases Option.isSome_iff_exists.mp hb with ⟨y, hy⟩
  rcases Option.isSome_iff_exists.mp hc with ⟨z, hz⟩
  unfold rowLe at *
  rw [hx, hy] at hab
  rw [hy, hz] at hbc
  rw [hx, hz]
  simp only [decide_eq_true_eq] at *
  exact le_trans hbc hab

/-- C1: for every set of unique positive identifiers handed to the full-data
Name Resolver (the collector only ever hands it such sets) and every outcome
of the per-identifier lookups, the resulting mapping is defined at every input
identifier and maps it according to its own outcome alone: the looked-up name
on success, "Unknown Skill (x)" when the call succeeded without the field,
"Error Skill (x)" when the call failed; a second oracle agreeing at x yields
the same value at x, so no other identifier's failure can affect it; and the
resolver is a total function, never failing as a whole. -/
theorem c1_resolver_isolation (ids : List Int) (oracle oracle2 : Int → LookupResult)
    (x : Int) (hx : x ∈ ids) (hpos : ∀ i ∈ ids, 0 < i) (hnd : ids.Nodup)
    (hagree : oracle x = oracle2 x) :
    lookupJs (fullDict ids oracle) x = some (resolveOne (oracle x) x)
    ∧ (oracle x = .ok none →
        lookupJs (fullDict ids oracle) x = some s!"Unknown Skill ({x})")
    ∧ (oracle x = .err →
        lookupJs (fullDict ids oracle) x = some s!"Error Skill ({x})")
    ∧ lookupJs (fullDict ids oracle) x = lookupJs (fullDict ids oracle2) x := by
  have hx1 : x ≠ -1 := by
    have := hpos x hx
    omega
  have key : ∀ o : Int → LookupResult,
      lookupJs (fullDict ids o) x = some (resolveOne (o x) x) := by
    intro o
    rw [fullDict, lookupJs_insertJs, if_neg hx1]
    refine lookupJs_buildDict _ _ _ ?_ ?_
    · rw [map_fst_entries_full]
      exact hnd
    · exact List.mem_map_of_mem (resolveEntryFull o) hx
  refine ⟨key oracle, ?_, ?_, ?_⟩
  · intro h
    rw [key oracle, h]
    rfl
  · intro h
    rw [key oracle, h]
    rfl
  · rw [key oracle, key oracle2, hagree]

/-- C1 witness: with ids {5, 7} and an oracle failing exactly at 7, identifier
7 resolves to its error placeholder. -/
theorem c1_resolver_isolation_witness :
    ((7 : Int) ∈ ([5, 7] : List Int)) ∧ (∀ i ∈ ([5, 7] : List Int), 0 < i)
    ∧ ([5, 7] : List Int).Nodup
    ∧ lookupJs (fullDict [5, 7] oracleErrAt7) 7 = some "Error Skill (7)" :=
  ⟨by decide, by decide, by decide,
    (c1_resolver_isolation [5, 7] oracleErrAt7 oracleErrAt7 7 (by decide) (by decide)
      (by decide) rfl).2.2.1 (by decide)⟩

/-- C2 counterexample: the claim says no collector variant ever emits an
identifier at most 0, but the single-player collector applies no sign filter,
so a player whose records contain the basic-attack id −1 yields it. -/
theorem c2_collector_cex :
    (-1 : Int) ∈ collectIdsSingle [{ id := -1, damage := "6", hitCounts := [2] }]
    ∧ (-1 : Int) ≤ 0 := by decide

/-- C2 amended: the full-data collector's output has no duplicates and only
strictly positive identifiers (absent or empty gates, players or skills
collections are tolerated, the output being total over all runs); the
single-player collector deduplicates but keeps identifiers at most 0. -/
theorem c2_collector_amended (run : Run) (skills : List SkillRecord) :
    (collectIds run).Nodup ∧ (∀ x ∈ collectIds run, 0 < x)
    ∧ (collectIdsSingle skills).Nodup :=
  ⟨nodup_collectIds run, fun x hx => ((mem_collectIds run x).mp hx).1,
    nodup_dedupJs _⟩

/-- C2 witness: on a run with a duplicated positive id and a negative one the
full-data collector yields the deduplicated positive singleton. -/
theorem c2_collector_amended_witness :
    (collectIds runSmall).Nodup ∧ ((5 : Int) ∈ collectIds runSmall)
    ∧ (0 : Int) < 5 ∧ (collectIdsSingle skillsNaN).Nodup :=
  ⟨(c2_collector_amended runSmall []).1, by decide,
    (c2_collector_amended runSmall []).2.1 5 (by decide),
    (c2_collector_amended { gates := none } skillsNaN).2.2⟩

/-- C3 counterexample: in the single-player variant the mapping contains the
key −1 only when −1 appears among the player's skill ids; with a lone positive
skill the key is absent, refuting "in every handler variant". -/
theorem c3_basic_attack_cex :
    lookupJs (singleDict (collectIdsSingle
      [{ id := 5, damage := "4", hitCounts := [1] }]) oracleConst) (-1) = none := by
  decide

/-- C3 amended: the full-data variants always map −1 to "Basic Attack"
whatever the input, and no variant ever issues a lookup call for −1 (the
full-data resolver's inputs are collector outputs, all positive; the
single-player resolver skips negatives); the single-player mapping contains
the key −1 exactly when −1 occurs among the player's skill ids, and then maps
it to "Basic Attack". -/
theorem c3_basic_attack_amended (ids : List Int) (oracle : Int → LookupResult)
    (run : Run) (skills : List SkillRecord) :
    lookupJs (fullDict ids oracle) (-1) = some "Basic Attack"
    ∧ (-1 : Int) ∉ lookupsIssuedFull (collectIds run)
    ∧ (-1 : Int) ∉ lookupsIssuedSingle ids
    ∧ ((-1 : Int) ∈ skills.map (·.id) →
        lookupJs (singleDict (collectIdsSingle skills) oracle) (-1)
          = some "Basic Attack") := by
  refine ⟨?_, ?_, ?_, ?_⟩
  · rw [fullDict, lookupJs_insertJs, if_pos rfl]
  · intro h
    have := ((mem_collectIds run (-1)).mp h).1
    omega
  · intro h
    rcases List.mem_filter.mp h with ⟨_, hcond⟩
    simp at hcond
  · intro hm
    have hm2 : (-1 : Int) ∈ collectIdsSingle skills := (mem_dedupJs _ _).mpr hm
    rw [singleDict]
    refine lookupJs_buildDict _ _ _ ?_ ?_
    · rw [map_fst_entries_single]
      exact nodup_dedupJs _
    · have hres : resolveEntrySingle oracle (-1) = (-1, "Basic Attack") := by
        rw [resolveEntrySingle, if_pos (by norm_num)]
      rw [← hres]
      exact List.mem_map_of_mem (resolveEntrySingle oracle) hm2

/-- C3 witness: the full-data mapping of input {5} still holds −1, and a
single-player record list containing −1 yields the Basic Attack entry. -/
theorem c3_basic_attack_amended_witness :
    lookupJs (fullDict [5] oracleConst) (-1) = some "Basic Attack"
    ∧ ((-1 : Int) ∈ ([{ id := -1, damage := "6", hitCounts := [2] }]
        : List SkillRecord).map (·.id))
    ∧ lookupJs (singleDict (collectIdsSingle
        [{ id := -1, damage := "6", hitCounts := [2] }]) oracleConst) (-1)
        = some "Basic Attack" :=
  ⟨(c3_basic_attack_amended [5] oracleConst { gates := none } []).1, by decide,
    (c3_basic_attack_amended [] oracleConst { gates := none }
      [{ id := -1, damage := "6", hitCounts := [2] }]).2.2.2 (by decide)⟩

/-- C8 counterexample: a run whose only record has skill id 0 — the id is
referenced in scope, but the full-data collector drops ids at most 0 and only
−1 is written manually, so the mapping has no key 0, refuting "every
identifier referenced by any SkillRecord in scope appears as a key". -/
theorem c8_mapping_cex :
    (0 : Int) ∈ referencedIds runZero
    ∧ lookupJs (fullDict (collectIds runZero) oracleConst) 0 = none := by decide

/-- C8 amended: the full-data mapping holds a key for every strictly positive
referenced identifier, and always the key −1; the single-player mapping holds
a key for every identifier referenced by the selected player's records
(including non-positive ones), but the key −1 only when referenced. -/
theorem c8_mapping_amended (run : Run) (oracle : Int → LookupResult)
    (skills : List SkillRecord) (x : Int) :
    (x ∈ referencedIds run → 0 < x →
      (lookupJs (fullDict (collectIds run) oracle) x).isSome = true)
    ∧ lookupJs (fullDict (collectIds run) oracle) (-1) = some "Basic Attack"
    ∧ (x ∈ skills.map (·.id) →
      (lookupJs (singleDict (collectIdsSingle skills) oracle) x).isSome = true) := by
  refine ⟨?_, ?_, ?_⟩
  · intro href hpos
    have hx : x ∈ collectIds run := (mem_collectIds run x).mpr ⟨hpos, href⟩
    have hx1 : x ≠ -1 := by omega
    rw [fullDict, lookupJs_insertJs, if_neg hx1,
      lookupJs_buildDict _ x (resolveOne (oracle x) x) ?_ ?_]
    · rfl
    · rw [map_fst_entries_full]
      exact nodup_collectIds run
    · exact List.mem_map_of_mem (resolveEntryFull oracle) hx
  · rw [fullDict, lookupJs_insertJs, if_pos rfl]
  · intro hm
    have hm2 : x ∈ collectIdsSingle skills := (mem_dedupJs _ _).mpr hm
    have hm3 := List.mem_map_of_mem (resolveEntrySingle oracle) hm2
    rcases hre : resolveEntrySingle oracle x with ⟨k, v⟩
    have hk : k = x := by rw [← resolveEntrySingle_fst oracle x, hre]
    subst hk
    rw [singleDict, lookupJs_buildDict _ k v ?_ ?_]
    · rfl
    · rw [map_fst_entries_single]
      exact nodup_dedupJs _
    · rw [← hre]
      exact hm3

/-- C8 witness: id 5 is referenced by `runSmall` and keyed in its full-data
mapping; id 0 is referenced by `playerZero` and keyed in its single mapping. -/
theorem c8_mapping_amended_witness :
    ((5 : Int) ∈ referencedIds runSmall) ∧ (0 : Int) < 5
    ∧ (lookupJs (fullDict (collectIds runSmall) oracleConst) 5).isSome = true
    ∧ ((0 : Int) ∈ (playerZero.skills.getD []).map (·.id))
    ∧ (lookupJs (singleDict (collectIdsSingle (playerZero.skills.getD []))
        oracleConst) 0).isSome = true :=
  ⟨by decide, by decide,
    (c8_mapping_amended runSmall oracleConst [] 5).1 (by decide) (by decide),
    by decide,
    (c8_mapping_amended { gates := none } oracleConst
      (playerZero.skills.getD []) 0).2.2 (by decide)⟩

/-- C9: in the single-player variant every identifier strictly below 0 that
appears among the player's records — not only −1 — is mapped to
"Basic Attack", and the lookup-issued set never contains a negative id. -/
theorem c9_negative_basic (skills : List SkillRecord) (oracle : Int → LookupResult)
    (x : Int) (hneg : x < 0) (hx : x ∈ skills.map (·.id)) :
    lookupJs (singleDict (collectIdsSingle skills) oracle) x = some "Basic Attack"
    ∧ ∀ ids : List Int, x ∉ lookupsIssuedSingle ids := by
  constructor
  · have hm2 : x ∈ collectIdsSingle skills := (mem_dedupJs _ _).mpr hx
    rw [singleDict]
    refine lookupJs_buildDict _ _ _ ?_ ?_
    · rw [map_fst_entries_single]
      exact nodup_dedupJs _
    · have hres : resolveEntrySingle oracle x = (x, "Basic Attack") := by
        rw [resolveEntrySingle, if_pos hneg]
      rw [← hres]
      exact List.mem_map_of_mem (resolveEntrySingle oracle) hm2
  · intro ids h
    rcases List.mem_filter.mp h with ⟨_, hcond⟩
    simp [hneg] at hcond

/-- C9 witness: id −2 (not −1) maps to Basic Attack and is never looked up. -/
theorem c9_negative_basic_witness :
    ((-2 : Int) < 0)
    ∧ ((-2 : Int) ∈ ([{ id := -2, damage := "1", hitCounts := [1] }]
        : List SkillRecord).map (·.id))
    ∧ lookupJs (singleDict (collectIdsSingle
        [{ id := -2, damage := "1", hitCounts := [1] }]) oracleConst) (-2)
        = some "Basic Attack"
    ∧ (-2 : Int) ∉ lookupsIssuedSingle [-2, 3] :=
  ⟨by decide, by decide,
    (c9_negative_basic [{ id := -2, damage := "1", hitCounts := [1] }]
      oracleConst (-2) (by decide) (by decide)).1,
    (c9_negative_basic [{ id := -2, damage := "1", hitCounts := [1] }]
      oracleConst (-2) (by decide) (by decide)).2 [-2, 3]⟩

/-- C10: the gate is matched by strict equality, so a string request parameter
never finds a gate whose stored id is a number, while the player is matched by
loose equality, so a string parameter whose numeric value is the player's
stored number does find it. -/
theorem c10_equality (g : Gate) (p : Player) (m n : Int) (s t : String)
    (hg : g.id = .num m) (hp : p.id = .num n) (ht : jsToNumber t = some n) :
    gateMatches s g = false ∧ playerMatches t p = true
    ∧ [g].find? (gateMatches s) = none
    ∧ [p].find? (playerMatches t) = some p := by
  have h1 : gateMatches s g = false := by
    rw [gateMatches, hg]
    rfl
  have h2 : playerMatches t p = true := by
    rw [playerMatches, hp]
    show (jsToNumber t == some n) = true
    rw [ht]
    exact beq_self_eq_true _
  refine ⟨h1, h2, ?_, ?_⟩
  · rw [List.find?_cons_of_neg _ (by rw [h1]; exact Bool.false_ne_true)]
    rfl
  · exact List.find?_cons_of_pos _ h2

/-- C10 witness: the string "62257" finds the player stored with the number
62257, while the string "7" does not find the gate stored with the number 7. -/
theorem c10_equality_witness :
    jsToNumber "62257" = some 62257
    ∧ gateMatches "7" gateNum7 = false
    ∧ playerMatches "62257" playerNum = true
    ∧ [playerNum].find? (playerMatches "62257") = some playerNum :=
  ⟨by decide,
    (c10_equality gateNum7 playerNum 7 62257 "7" "62257" rfl rfl (by decide)).1,
    (c10_equality gateNum7 playerNum 7 62257 "7" "62257" rfl rfl (by decide)).2.1,
    (c10_equality gateNum7 playerNum 7 62257 "7" "62257" rfl rfl (by decide)).2.2.2⟩

/-- C4: when every record's damage string parses (the comparator is then
consistent; with a NaN damage the engine's order is implementation-defined),
the Aggregator's rows are sorted by damage descending — any earlier row's
damage is at least any later row's — every row's damage is numeric, and rows
of equal damage keep the relative order of the records they came from. -/
theorem c4_sorted_stable (dict : List (Int × String)) (dd : String)
    (skills : List SkillRecord) (rs : List Row)
    (hps : ∀ s ∈ skills, (parseDamage s.damage).isSome = true)
    (hagg : aggregate dict dd skills = .rows rs) :
    rs.Pairwise (fun a b => ∀ x y, a.damage = some x → b.damage = some y → y ≤ x)
    ∧ (∀ r ∈ rs, r.damage.isSome = true)
    ∧ (∀ d : Int, rs.filter (fun r => r.damage == some d)
        = (skills.map (cleanRow dict (parseDamage dd))).filter
            (fun r => r.damage == some d)) := by
  have hrs : rs = insertionSortJs rowLe (skills.map (cleanRow dict (parseDamage dd))) := by
    unfold aggregate at hagg
    by_cases h : parseDamage dd = some 0
    · rw [if_pos h] at hagg
      cases hagg
    · rw [if_neg h] at hagg
      unfold aggregateRows at hagg
      cases hagg
      rfl
  subst hrs
  have hmemsome : ∀ r ∈ skills.map (cleanRow dict (parseDamage dd)),
      r.damage.isSome = true := by
    intro r hr
    rcases List.mem_map.mp hr with ⟨s, hs, rfl⟩
    rw [cleanRow_damage]
    exact hps s hs
  refine ⟨?_, ?_, ?_⟩
  · have hsorted := pairwise_insertionSortJs rowLe
      (skills.map (cleanRow dict (parseDamage dd)))
      (fun a _ b _ => rowLe_total a b)
      (fun a ha b hb c hc => rowLe_trans_some a b c
        (hmemsome a ha) (hmemsome b hb) (hmemsome c hc))
    refine List.Pairwise.imp_of_mem ?_ hsorted
    intro a b _ _ hab x y hax hby
    unfold rowLe at hab
    rw [hax, hby] at hab
    exact of_decide_eq_true hab
  · intro r hr
    exact hmemsome r ((mem_insertionSortJs _ _ r).mp hr)
  · intro d
    refine filter_insertionSortJs rowLe _ _ ?_
    intro a _ b _ hpa hpb
    have ha : a.damage = some d := by simpa using hpa
    have hb : b.damage = some d := by simpa using hpb
    unfold rowLe
    rw [ha, hb]
    simp

/-- C4 witness: two records with damages 4 and 6 under an unparseable player
total come out sorted 6 then 4, with numeric damage fields. -/
theorem c4_sorted_stable_witness :
    (∀ s ∈ skillsNaN, (parseDamage s.damage).isSome = true)
    ∧ aggregate [] "x" skillsNaN = .rows rowsNaN
    ∧ (∀ r ∈ rowsNaN, r.damage.isSome = true) :=
  ⟨by decide, by decide,
    (c4_sorted_stable [] "x" skillsNaN rowsNaN (by decide) (by decide)).2.1⟩

/-- C5: a player total that parses to exactly 0 short-circuits the Aggregator
to the empty result before any row (and hence any division by the total) is
computed, and the boundary surfaces it as the zero-damage message with an
empty data array. -/
theorem c5_zero_damage (dict : List (Int × String)) (dd : String)
    (skills : List SkillRecord) (run : Run) (oracle : Int → LookupResult)
    (pid gid : String) (hdd : parseDamage dd = some 0) :
    aggregate dict dd skills = .zeroDamage
    ∧ (∀ gates gate players player,
        pid ≠ "" → gid ≠ "" →
        run.gates = some gates →
        gates.find? (gateMatches gid) = some gate →
        gate.players = some players →
        players.find? (playerMatches pid) = some player →
        parseDamage player.damageDealt = some 0 →
        handleSingle run oracle pid gid
          = .zeroMessage "Player has 0 damage for this gate." []) := by
  constructor
  · unfold aggregate
    rw [if_pos hdd]
  · intro gates gate players player hpid hgid hgates hgfind hplayers hpfind hzero
    unfold handleSingle
    rw [if_neg (by simp [hpid, hgid])]
    simp only [hgates, hgfind, hplayers, hpfind]
    rw [if_pos hzero]

/-- C5 witness: the zero-damage player of `runZeroDmg` produces the message
response at the boundary and the empty sequence at the Aggregator. -/
theorem c5_zero_damage_witness :
    parseDamage "0" = some 0
    ∧ aggregate [] "0" skillsNaN = .zeroDamage
    ∧ handleSingle runZeroDmg oracleConst "62257" "Total"
        = .zeroMessage "Player has 0 damage for this gate." [] :=
  ⟨by decide,
    (c5_zero_damage [] "0" skillsNaN runZeroDmg oracleConst "62257" "Total"
      (by decide)).1,
    (c5_zero_damage [] "0" skillsNaN runZeroDmg oracleConst "62257" "Total"
      (by decide)).2 [gateZeroDmg] gateZeroDmg [playerZeroDmg] playerZeroDmg
      (by decide) (by decide) rfl (by decide) rfl (by decide) (by decide)⟩

/-- C6: the concrete scenario — total "1.000", one record
{id 5, damage "1.000", hitCounts [8, 2]} and mapping {5 ↦ "Fireball"} —
yields the single row {Fireball, 1000, 100.0, "2 / 10", 20.0}. -/
theorem c6_scenario :
    aggregate [(5, "Fireball")] "1.000"
      [{ id := 5, damage := "1.000", hitCounts := [8, 2] }]
      = .rows [{ name := "Fireball", damage := some 1000, percent := some 100,
                 crit_hits := "2 / 10", crit_rate := 20 }] := by
  have h1 : parseDamage "1.000" = some 1000 := by decide
  unfold aggregate
  rw [if_neg (by decide)]
  unfold aggregateRows insertionSortJs insertionSortJs orderedInsertJs
  rw [List.map_cons, List.map_nil]
  show AggResult.rows [cleanRow [(5, "Fireball")] (some 1000)
    { id := 5, damage := "1.000", hitCounts := [8, 2] }] = _
  unfold cleanRow
  rw [h1]
  have hname : resolveName [(5, "Fireball")] 5 = "Fireball" := by decide
  have hpct : roundTo1 ((1000 : ℚ) / (1000 : ℚ) * 100) = 100 := by
    norm_num [roundTo1]
  have hcrit : roundTo1 ((2 : ℚ) / (10 : ℚ) * 100) = 20 := by
    norm_num [roundTo1]
  simp only [hname, hpct, hcrit]
  norm_num
  exact ⟨by norm_num [roundTo1], by decide, by norm_num [roundTo1]⟩

/-- C7 counterexample: a present but malformed damage string ("abc") does not
make the cleaning step fail — `parseInt` yields NaN and a row is produced —
refuting "fails only ... when required fields are missing or malformed ... in
that case it fails with a MalformedSkillRecord condition". -/
theorem c7_malformed_cex :
    cleanRowRaw [] (some 100) { id := 7, damage := some "abc", hitCounts := some [] }
      = .ok { name := "Unknown Skill (7)", damage := none, percent := none,
              crit_hits := "0 / 0", crit_rate := 0 } := by rfl

/-- C7 amended: the cleaning step is a pure function; it fails exactly when
the damage string or the hit-count sequence is absent, and then with a generic
TypeError constant that does not identify the offending skill identifier; a
present but non-numeric damage string does not fail but yields a NaN-damage
row; every input with both fields present succeeds. -/
theorem c7_malformed_amended (dict : List (Int × String)) (total : Option Int)
    (r : RawSkillRecord) :
    (∀ ds hc, r.damage = some ds → r.hitCounts = some hc →
      cleanRowRaw dict total r
        = .ok (cleanRow dict total { id := r.id, damage := ds, hitCounts := hc }))
    ∧ (r.damage = none → cleanRowRaw dict total r = .error tyErrReplace)
    ∧ (∀ ds, r.damage = some ds → r.hitCounts = none →
        cleanRowRaw dict total r = .error tyErrIndex) := by
  refine ⟨?_, ?_, ?_⟩
  · intro ds hc hds hhc
    unfold cleanRowRaw
    rw [hds, hhc]
  · intro hds
    unfold cleanRowRaw
    rw [hds]
  · intro ds hds hhc
    unfold cleanRowRaw
    rw [hds, hhc]

/-- C7 witness: an absent damage field fails with the generic replace
TypeError; an absent hit-count field fails with the generic index TypeError;
a fully present record succeeds. -/
theorem c7_malformed_amended_witness :
    cleanRowRaw [] (some 10) { id := 7, damage := none, hitCounts := some [1] }
      = .error tyErrReplace
    ∧ cleanRowRaw [] (some 10) { id := 7, damage := some "4", hitCounts := none }
      = .error tyErrIndex
    ∧ cleanRowRaw [] none { id := 7, damage := some "4", hitCounts := some [] }
      = .ok (cleanRow [] none { id := 7, damage := "4", hitCounts := [] }) :=
  ⟨(c7_malformed_amended [] (some 10)
      { id := 7, damage := none, hitCounts := some [1] }).2.1 rfl,
    (c7_malformed_amended [] (some 10)
      { id := 7, damage := some "4", hitCounts := none }).2.2 "4" rfl rfl,
    (c7_malformed_amended [] none
      { id := 7, damage := some "4", hitCounts := some [] }).1 "4" [] rfl rfl⟩

end SkillSpread
